import Mathlib

/-!
# Verification of the streaming log-analytics core

Shallow embedding of the Go sources of `logstream-analyzer`
(`analyzer/window.go`, `analyzer/patterns.go`, `analyzer/analyzer.go`,
`models/models.go`) together with proofs settling the frozen claims
about the specification.

Modelling conventions:
* `time.Time` values are whole seconds (`Int`); `Truncate(time.Second)`
  is therefore the identity, and two entries falling into the same wall
  second carry the same `Int` instant.  `time.Duration` values are held
  in seconds as well.
* Go `float64` quantities (rates, weights, percentage changes) are
  modelled by `ℚ`.  All float constants appearing in the source
  (`0.8`, `1.5`, `100.0`, `3.0`, `4`, `5.0`) and all concrete values the
  claims mention are exactly representable, and at the concrete operand
  sizes involved the rounded float results coincide with the rational
  ones.
* Go maps are modelled by association lists (first occurrence of a key
  is the binding); reads of a missing key yield the zero value, exactly
  as in Go.
* `container/list` lists are modelled by `List`, `PushBack` appending
  at the tail; the backward iterations of the source walk the reversed
  list.
-/

/-- Read a key from an association list, returning the Go zero value
`d` when the key is absent (Go `m[k]` read semantics). -/
def assocGetD {α : Type} (m : List (String × α)) (k : String) (d : α) : α :=
  match m with
  | [] => d
  | (k', v) :: rest => if k' = k then v else assocGetD rest k d

/-- Read a key from an association list (Go `v, ok := m[k]`). -/
def assocFind? {α : Type} (m : List (String × α)) (k : String) : Option α :=
  match m with
  | [] => none
  | (k', v) :: rest => if k' = k then some v else assocFind? rest k

/-- Go `m[k] = f(m[k])` where a missing key reads as the zero value `d`:
update the first binding of `k`, or append a fresh binding. -/
def assocUpd {α : Type} (m : List (String × α)) (k : String) (d : α) (f : α → α) :
    List (String × α) :=
  match m with
  | [] => [(k, f d)]
  | (k', v) :: rest => if k' = k then (k, f v) :: rest else (k', v) :: assocUpd rest k d f

/-- Go `if v, ok := m[k]; ok { m[k] = f(v) }`: modify the binding of `k`
when present, otherwise leave the map unchanged. -/
def assocModify {α : Type} (m : List (String × α)) (k : String) (f : α → α) :
    List (String × α) :=
  match m with
  | [] => []
  | (k', v) :: rest => if k' = k then (k, f v) :: rest else (k', v) :: assocModify rest k f

/-- Sum of the values of an association list of integers. -/
def sumVals (m : List (String × Int)) : Int :=
  match m with
  | [] => 0
  | (_, v) :: rest => v + sumVals rest

/-- `models.LogEntry`: a parsed log line.  Timestamps are whole
seconds. -/
structure LogEntry where
  timestamp : Int
  level : String
  ip : String
  message : String
  errorType : String
  isValid : Bool
deriving Repr, DecidableEq

/-- `analyzer.SlidingWindow`: the time-bounded window with its
secondary indexes and counters (the mutex and back pointer carry no
sequential meaning and are omitted). -/
structure SlidingWindow where
  entries : List LogEntry
  entriesByType : List (String × List LogEntry)
  errorsByType : List (String × List LogEntry)
  duration : Int
  totalCount : Int
  levelCounts : List (String × Int)
  errorCounts : List (String × Int)
deriving Repr, DecidableEq

/-- `analyzer.NewSlidingWindow`. -/
def NewSlidingWindow (durationSec : Int) : SlidingWindow :=
  { entries := []
    entriesByType := []
    errorsByType := []
    duration := durationSec
    totalCount := 0
    levelCounts := []
    errorCounts := [] }

/-- Remove the first element whose timestamp equals `ts`
(the inner loops of `removeExpiredEntries`, which match secondary-list
entries by timestamp equality and break at the first match). -/
def removeFirstTs (ts : Int) : List LogEntry → List LogEntry
  | [] => []
  | e :: rest => if e.timestamp = ts then rest else e :: removeFirstTs ts rest

/-- One iteration of the eviction loop in
`SlidingWindow.removeExpiredEntries`: drop the expired head `e` of the
primary list, fix up the counters and remove the first
timestamp-matching element from each secondary list. -/
def evictOne (w : SlidingWindow) (e : LogEntry) (rest : List LogEntry) : SlidingWindow :=
  let w1 : SlidingWindow :=
    { w with
      entries := rest
      totalCount := w.totalCount - 1
      levelCounts := assocUpd w.levelCounts e.level 0 (· - 1)
      entriesByType := assocModify w.entriesByType e.level (removeFirstTs e.timestamp) }
  if e.level == "ERROR" && e.errorType != "" then
    { w1 with
      errorCounts := assocUpd w1.errorCounts e.errorType 0 (· - 1)
      errorsByType := assocModify w1.errorsByType e.errorType (removeFirstTs e.timestamp) }
  else w1

/-- The eviction loop of `SlidingWindow.removeExpiredEntries`,
structurally recursive on the primary list (the argument `es` is
always the current `w.entries`; `evictOne` re-establishes this). -/
def removeExpiredAux (cutoff : Int) : List LogEntry → SlidingWindow → SlidingWindow
  | [], w => w
  | e :: rest, w =>
    if e.timestamp < cutoff then removeExpiredAux cutoff rest (evictOne w e rest)
    else w

/-- `SlidingWindow.removeExpiredEntries`: walk the primary list from
the oldest end, evicting entries with `timestamp < cutoff`
(`Timestamp.Before(cutoff)`), and stop at the first non-expired
entry. -/
def removeExpiredEntries (cutoff : Int) (w : SlidingWindow) : SlidingWindow :=
  removeExpiredAux cutoff w.entries w

/-- `SlidingWindow.Add`: evict expired entries with cutoff
`now - duration`, then append the entry to the primary list, the
per-level list and — for classified errors — the per-error list,
bumping the corresponding counters. -/
def SlidingWindow.Add (w : SlidingWindow) (entry : LogEntry) (now : Int) : SlidingWindow :=
  let w := removeExpiredEntries (now - w.duration) w
  let w : SlidingWindow :=
    { w with
      entries := w.entries ++ [entry]
      totalCount := w.totalCount + 1
      levelCounts := assocUpd w.levelCounts entry.level 0 (· + 1)
      entriesByType := assocUpd w.entriesByType entry.level [] (· ++ [entry]) }
  if entry.level == "ERROR" && entry.errorType != "" then
    { w with
      errorCounts := assocUpd w.errorCounts entry.errorType 0 (· + 1)
      errorsByType := assocUpd w.errorsByType entry.errorType [] (· ++ [entry]) }
  else w

/-- `SlidingWindow.SetDuration`: record the new duration and run an
eviction pass when the window shrank. -/
def SlidingWindow.SetDuration (w : SlidingWindow) (durationSec : Int) (now : Int) :
    SlidingWindow :=
  let oldDuration := w.duration
  let w : SlidingWindow := { w with duration := durationSec }
  if w.duration < oldDuration then removeExpiredEntries (now - w.duration) w
  else w

/-- `SlidingWindow.GetStats`: total count plus copies of the level and
error count maps (copies are implicit under value semantics). -/
def SlidingWindow.GetStats (w : SlidingWindow) :
    Int × List (String × Int) × List (String × Int) :=
  (w.totalCount, w.levelCounts, w.errorCounts)

/-- The backward counting loop of `SlidingWindow.GetErrorRate`: walk
the reversed per-error list, stopping at the first entry with
`Timestamp.Before(cutoff)`. -/
def countBackFrom (cutoff : Int) : List LogEntry → Nat
  | [] => 0
  | e :: rest => if e.timestamp < cutoff then 0 else 1 + countBackFrom cutoff rest

/-- `SlidingWindow.GetErrorRate`: count per-error entries newer than
`now - seconds` scanning backward, divide by `seconds`; `0` for an
unknown error type. -/
def SlidingWindow.GetErrorRate (w : SlidingWindow) (errorType : String) (seconds : Int)
    (now : Int) : ℚ :=
  match assocFind? w.errorsByType errorType with
  | some l => (countBackFrom (now - seconds) l.reverse : ℚ) / (seconds : ℚ)
  | none => 0

/-- The backward two-interval scan of `SlidingWindow.GetErrorChange`:
walking the reversed per-error list, entries `After(recentCutoff)`
count as recent, entries `After(prevCutoff)` count as previous, and the
scan breaks at the first entry in neither interval. -/
def changeScan (recentCutoff prevCutoff : Int) : List LogEntry → Nat × Nat
  | [] => (0, 0)
  | e :: rest =>
    if recentCutoff < e.timestamp then
      ((changeScan recentCutoff prevCutoff rest).1 + 1,
       (changeScan recentCutoff prevCutoff rest).2)
    else if prevCutoff < e.timestamp then
      ((changeScan recentCutoff prevCutoff rest).1,
       (changeScan recentCutoff prevCutoff rest).2 + 1)
    else (0, 0)

/-- The final arithmetic of `SlidingWindow.GetErrorChange`. -/
def errChangeFormula (recentCount prevCount : Nat) : ℚ :=
  if prevCount = 0 then
    if 0 < recentCount then 100 else 0
  else 100 * ((recentCount : ℚ) - (prevCount : ℚ)) / (prevCount : ℚ)

/-- `SlidingWindow.GetErrorChange`: percentage change of the per-error
rate between `(now - recentSec, now]` and the `prevSec` seconds before
it; `0` for an unknown error type. -/
def SlidingWindow.GetErrorChange (w : SlidingWindow) (errorType : String)
    (recentSec prevSec : Int) (now : Int) : ℚ :=
  match assocFind? w.errorsByType errorType with
  | some l =>
    let recentCutoff := now - recentSec
    let prevCutoff := recentCutoff - prevSec
    let counts := changeScan recentCutoff prevCutoff l.reverse
    errChangeFormula counts.1 counts.2
  | none => 0

/-- `analyzer.ErrorPattern`: per-error-type statistics. -/
structure ErrorPattern where
  count : Int
  weight : ℚ
  lastUpdated : Int
  rateHistory : List ℚ
deriving Repr, DecidableEq

/-- `models.EmergingPatternEvent`. -/
structure EmergingPatternEvent where
  pattern : String
  startTime : Int
  endTime : Int
  peakChange : ℚ
  description : String
deriving Repr, DecidableEq

/-- `analyzer.PatternTracker` (the window pointer is passed explicitly
to the operations that consult it). -/
structure PatternTracker where
  patterns : List (String × ErrorPattern)
  historySize : Nat
  patternHistory : List EmergingPatternEvent
deriving Repr, DecidableEq

/-- `analyzer.NewPatternTracker`. -/
def NewPatternTracker : PatternTracker :=
  { patterns := [], historySize := 5, patternHistory := [] }

/-- `PatternTracker.UpdatePattern`: no-op unless the entry is a
classified error; otherwise create the pattern on first sight (Go zero
value: weight `0`, zero-filled rate history), increment its count, and
— when more than 10 seconds passed since `LastUpdated` — rotate the
rate history (`copy(h[1:], h[:historySize-1])` then `h[0] = rate`),
stamp `LastUpdated`, and apply the spike rule, tripling the weight when
the newest rate at least quadruples the previous one. -/
def PatternTracker.UpdatePattern (pt : PatternTracker) (w : SlidingWindow)
    (entry : LogEntry) (now : Int) : PatternTracker :=
  if entry.level != "ERROR" || entry.errorType == "" then pt
  else
    let p0 : ErrorPattern :=
      match assocFind? pt.patterns entry.errorType with
      | some p => p
      | none =>
        { count := 0, weight := 0, lastUpdated := now
          rateHistory := List.replicate pt.historySize 0 }
    let p1 : ErrorPattern := { p0 with count := p0.count + 1 }
    let p2 : ErrorPattern :=
      if 10 < now - p1.lastUpdated then
        let h := w.GetErrorRate entry.errorType 10 now ::
          p1.rateHistory.take (pt.historySize - 1)
        let p : ErrorPattern := { p1 with rateHistory := h, lastUpdated := now }
        if 2 ≤ h.length ∧ 0 < h.getD 0 0 ∧ 0 < h.getD 1 0 ∧
            4 * h.getD 1 0 ≤ h.getD 0 0 then
          { p with weight := p.weight * 3 }
        else p
      else p1
    { pt with patterns := assocUpd pt.patterns entry.errorType p2 (fun _ => p2) }

/-- The event built by `PatternTracker.StoreEmergingPattern` (both
`time.Now()` calls of the source are modelled by the single instant
`now`). -/
def mkEmergingEvent (pattern : String) (change : ℚ) (now : Int) : EmergingPatternEvent :=
  { pattern := pattern
    startTime := now
    endTime := now + 60
    peakChange := change
    description := "Spike in " ++ pattern ++ " errors" }

/-- `PatternTracker.StoreEmergingPattern`: append the event and, when
the history then exceeds 5 events, drop the oldest one. -/
def PatternTracker.StoreEmergingPattern (pt : PatternTracker) (pattern : String)
    (change : ℚ) (now : Int) : PatternTracker :=
  let h := pt.patternHistory ++ [mkEmergingEvent pattern change now]
  { pt with patternHistory := if 5 < h.length then h.drop 1 else h }

/-- `PatternTracker.GetPatternHistory` (the defensive copy is implicit
under value semantics). -/
def PatternTracker.GetPatternHistory (pt : PatternTracker) : List EmergingPatternEvent :=
  pt.patternHistory

/-- `PatternTracker.GetEmergingPatterns`: one pass over the known
patterns collecting `(errType, change)` with
`change = GetErrorChange(errType, 15, 15) > 100` into the result map
and two parallel slices, then a second pass storing each significant
pattern in the history. -/
def PatternTracker.GetEmergingPatterns (pt : PatternTracker) (w : SlidingWindow)
    (now : Int) : PatternTracker × List (String × ℚ) :=
  let scan := pt.patterns.foldl
    (fun (acc : List (String × ℚ) × List String × List ℚ) tp =>
      let change := w.GetErrorChange tp.1 15 15 now
      if 100 < change then
        (acc.1 ++ [(tp.1, change)], acc.2.1 ++ [tp.1], acc.2.2 ++ [change])
      else acc)
    ([], [], [])
  let pt' := (scan.2.1.zip scan.2.2).foldl
    (fun acc pc => acc.StoreEmergingPattern pc.1 pc.2 now) pt
  (pt', scan.1)

/-- `analyzer.RateBucket`. -/
structure RateBucket where
  count : Int
  timestamp : Int
deriving Repr, DecidableEq

/-- `models.LogStats` (the embedded mutex carries no sequential
meaning and is omitted). -/
structure LogStats where
  entriesProcessed : Int
  currentRate : ℚ
  peakRate : ℚ
  windowSize : Int
  levelCounts : List (String × Int)
  errorCounts : List (String × Int)
  errorRates : List (String × ℚ)
  emergingPatterns : List (String × ℚ)
  skippedEntries : Int
  lastUpdated : Int
  emergingPatternHistory : List EmergingPatternEvent
  previousWindowSize : Int
deriving Repr, DecidableEq

/-- `models.NewLogStats`: default 60-second window, and
`PreviousWindowSize` initialized to the same 60. -/
def NewLogStats (now : Int) : LogStats :=
  { entriesProcessed := 0
    currentRate := 0
    peakRate := 0
    windowSize := 60
    levelCounts := []
    errorCounts := []
    errorRates := []
    emergingPatterns := []
    skippedEntries := 0
    lastUpdated := now
    emergingPatternHistory := []
    previousWindowSize := 60 }

/-- `models.Alert`, by category with the data interpolated into the
message (`Burst detected: <count> entries in 1 sec, resized buffer to
<newBufferSize>`, `Adjusted window to <newSize> sec due to rate surge`,
`High error rate (<rate> errors/sec), increased pattern weight`). -/
inductive Alert where
  | burst (count : Int) (newBufferSize : Int)
  | windowAdjusted (newSize : Int)
  | highErrorRate (rate : ℚ)
deriving Repr, DecidableEq

/-- Ghost trace of the counter increments performed by `processLogs`,
recording whether the increment was executed under `a.mux`. -/
inductive CounterEvent where
  | incrProcessed (locked : Bool)
  | incrSkipped (locked : Bool)
deriving Repr, DecidableEq

/-- `analyzer.Analyzer` together with the local state of its
`processLogs` loop (`secondBucket`, `secondCount`). -/
structure Analyzer where
  window : SlidingWindow
  patternTracker : PatternTracker
  stats : LogStats
  rateBuckets : List RateBucket
  skippedEntries : Int
  bufferResized : Bool
  bufferSize : Int
  buggyConcurrency : Bool
  secondBucket : Int
  secondCount : Int
deriving Repr, DecidableEq

/-- `analyzer.NewAnalyzer` (with `processLogs`'s locals initialized as
at loop entry: `secondBucket = now.Truncate(second)`, count 0).  The
source sets `buggyConcurrency = true`. -/
def NewAnalyzer (initialBufferSize : Int) (now : Int) : Analyzer :=
  { window := NewSlidingWindow 60
    patternTracker := NewPatternTracker
    stats := NewLogStats now
    rateBuckets := []
    skippedEntries := 0
    bufferResized := false
    bufferSize := initialBufferSize
    buggyConcurrency := true
    secondBucket := now
    secondCount := 0 }

/-- `Analyzer.updateRateBucket`: append the committed bucket, then keep
only buckets with `Timestamp.After(now - 120s)` (the loop copying
survivors into `newBuckets`). -/
def Analyzer.updateRateBucket (a : Analyzer) (timestamp count : Int) (now : Int) :
    Analyzer :=
  let bs := a.rateBuckets ++ [{ count := count, timestamp := timestamp }]
  let cutoff := now - 120
  let newBuckets := bs.foldl
    (fun acc b => if cutoff < b.timestamp then acc ++ [b] else acc) []
  { a with rateBuckets := newBuckets }

/-- `Analyzer.calculateRate`: accumulate `(totalCount, relevantBuckets)`
over buckets with `Timestamp.After(now - seconds)` and return their
average, `0` when none qualify.  No bucket is evicted here. -/
def Analyzer.calculateRate (a : Analyzer) (seconds : Int) (now : Int) : ℚ :=
  let cutoff := now - seconds
  let acc := a.rateBuckets.foldl
    (fun (acc : Int × Int) b =>
      if cutoff < b.timestamp then (acc.1 + b.count, acc.2 + 1) else acc)
    (0, 0)
  if acc.2 = 0 then 0 else (acc.1 : ℚ) / (acc.2 : ℚ)

/-- One `logChan` iteration of `Analyzer.processLogs` for the entry
`entry` observed at instant `now`, returning the new state, the alerts
sent, and the ghost trace of counter increments.  `0.8` and `1.5` are
the exact rationals `4/5` and `3/2`; `int(...)` is `Int.floor` (the
operands are non-negative in every reachable state). -/
def Analyzer.processEntry (a : Analyzer) (entry : LogEntry) (now : Int) :
    Analyzer × List Alert × List CounterEvent :=
  let a := if now != a.secondBucket then
      { a.updateRateBucket a.secondBucket a.secondCount now with
        secondBucket := now, secondCount := 0 }
    else a
  let a := { a with secondCount := a.secondCount + 1 }
  if !entry.isValid then
    ({ a with skippedEntries := a.skippedEntries + 1 }, [], [.incrSkipped true])
  else
    let a := { a with window := a.window.Add entry now }
    let a := { a with patternTracker := a.patternTracker.UpdatePattern a.window entry now }
    let locked := !(entry.level == "ERROR" && a.buggyConcurrency)
    let a := { a with stats := { a.stats with entriesProcessed := a.stats.entriesProcessed + 1 } }
    if ((a.bufferSize : ℚ) * (4 / 5)).floor < a.secondCount then
      let newSize := ((a.bufferSize : ℚ) * (3 / 2)).floor
      ({ a with bufferSize := newSize, bufferResized := true },
       [.burst a.secondCount newSize], [.incrProcessed locked])
    else (a, [], [.incrProcessed locked])

/-- Run `processLogs` over a list of `(entry, now)` observations,
collecting all alerts and counter events in order. -/
def Analyzer.runEntries (a : Analyzer) (es : List (LogEntry × Int)) :
    Analyzer × List Alert × List CounterEvent :=
  match es with
  | [] => (a, [], [])
  | (e, now) :: rest =>
    let step := a.processEntry e now
    let tail := step.1.runEntries rest
    (tail.1, step.2.1 ++ tail.2.1, step.2.2 ++ tail.2.2)

/-- `Analyzer.cloneStats`: field-by-field copy into a fresh
`models.NewLogStats()`.  `PreviousWindowSize` is not among the copied
fields, so the clone reports the `NewLogStats` default of 60. -/
def Analyzer.cloneStats (a : Analyzer) : LogStats :=
  { entriesProcessed := a.stats.entriesProcessed
    currentRate := a.stats.currentRate
    peakRate := a.stats.peakRate
    windowSize := a.stats.windowSize
    lastUpdated := a.stats.lastUpdated
    skippedEntries := a.stats.skippedEntries
    levelCounts := a.stats.levelCounts
    errorCounts := a.stats.errorCounts
    errorRates := a.stats.errorRates
    emergingPatterns := a.stats.emergingPatterns
    emergingPatternHistory := a.stats.emergingPatternHistory
    previousWindowSize := 60 }

/-- `Analyzer.generateStats`, one 1 Hz snapshot tick at instant `now`:
compute the current rate, adapt the window size, refresh every stats
field, emit the window-adjustment and high-error-rate alerts, clear
`bufferResized`, and return the cloned snapshot. -/
def Analyzer.generateStats (a : Analyzer) (now : Int) :
    Analyzer × LogStats × List Alert :=
  let currentRate := a.calculateRate 10 now
  let a := if a.stats.peakRate < currentRate then
      { a with stats := { a.stats with peakRate := currentRate } }
    else a
  let adj : Int × List Alert :=
    if 2500 < currentRate ∧ 30 < a.stats.windowSize then
      (max 30 (a.stats.windowSize - 10), [.windowAdjusted (max 30 (a.stats.windowSize - 10))])
    else if currentRate < 600 ∧ a.stats.windowSize < 120 then
      (min 120 (a.stats.windowSize + 10), [])
    else (a.stats.windowSize, [])
  let a := if adj.1 != a.stats.windowSize then
      { a with stats := { a.stats with windowSize := adj.1 }
               window := a.window.SetDuration adj.1 now }
    else a
  let stats1 := a.window.GetStats
  let a := { a with stats := { a.stats with
    currentRate := currentRate
    levelCounts := stats1.2.1
    errorCounts := stats1.2.2
    lastUpdated := now
    skippedEntries := a.skippedEntries } }
  let a := { a with stats := { a.stats with
    errorRates := a.stats.errorCounts.map
      (fun (kv : String × Int) =>
        (kv.1, a.window.GetErrorRate kv.1 a.stats.windowSize now)) } }
  let emerging := a.patternTracker.GetEmergingPatterns a.window now
  let a := { a with patternTracker := emerging.1
                    stats := { a.stats with emergingPatterns := emerging.2 } }
  let a := { a with stats := { a.stats with
    emergingPatternHistory := a.patternTracker.GetPatternHistory } }
  let totalErrorRate : ℚ :=
    a.stats.errorRates.foldl (fun s (kv : String × ℚ) => s + kv.2) 0
  let alerts := adj.2 ++ (if 5 < totalErrorRate then [.highErrorRate totalErrorRate] else [])
  let a := if a.bufferResized then { a with bufferResized := false } else a
  (a, a.cloneStats, alerts)

/-- Modelled from the claim's words for comparison (C9): a read that
first evicts buckets with `timestamp ≤ now - 120` and then averages the
counts of the remaining buckets with `timestamp > now - seconds`. -/
def claimEvictThenRate (buckets : List RateBucket) (seconds now : Int) : ℚ :=
  let remaining := buckets.filter (fun b => now - 120 < b.timestamp)
  let rel := remaining.filter (fun b => now - seconds < b.timestamp)
  if rel.length = 0 then 0
  else ((rel.map RateBucket.count).sum : ℚ) / (rel.length : ℚ)

/-- Run a sequence of `UpdatePattern` calls (each with the window it
consults and its observation instant). -/
def runPatternUpdates (pt : PatternTracker) :
    List (SlidingWindow × LogEntry × Int) → PatternTracker
  | [] => pt
  | (w, e, now) :: rest => runPatternUpdates (pt.UpdatePattern w e now) rest

/-- Every tracked pattern currently has weight 0. -/
def allWeightsZero (pt : PatternTracker) : Bool :=
  pt.patterns.all (fun tp => decide (tp.2.weight = 0))

/-- The probe entry of the burst scenario: a valid INFO line in wall
second 0. -/
def burstProbeEntry : LogEntry :=
  { timestamp := 0, level := "INFO", ip := "ip", message := "m", errorType := ""
    isValid := true }

/-- The membership condition of the per-error index: a window entry is
indexed under error key `t` iff it is a classified ERROR of type `t`
(with a non-empty type, matching the guard in `Add`). -/
def errPred (t : String) (e : LogEntry) : Bool :=
  e.level == "ERROR" && e.errorType == t && !(t == "")

/-- Inductive invariant of the sliding window: the total count is the
primary-list length, the level counts sum to it, and the per-error
index for each key `t` is exactly the sublist of classified type-`t`
errors of the primary list, with `error_counts[t]` its length. -/
def WinInv (w : SlidingWindow) : Prop :=
  w.totalCount = (w.entries.length : Int) ∧
  sumVals w.levelCounts = (w.entries.length : Int) ∧
  (∀ t, assocGetD w.errorsByType t [] = w.entries.filter (errPred t)) ∧
  (∀ t, assocGetD w.errorCounts t 0 = ((w.entries.filter (errPred t)).length : Int))

/-- A window operation of the claim: an `Add` (with its observation
instant) or a `SetDuration`. -/
inductive WinOp where
  | addOp (e : LogEntry) (now : Int)
  | setDurOp (d : Int) (now : Int)
deriving Repr, DecidableEq

/-- Apply a window operation. -/
def applyWinOp (w : SlidingWindow) : WinOp → SlidingWindow
  | .addOp e now => w.Add e now
  | .setDurOp d now => w.SetDuration d now

/-- Run a sequence of window operations. -/
def runWinOps (w : SlidingWindow) (ops : List WinOp) : SlidingWindow :=
  ops.foldl applyWinOp w

/-- The entry added by an `addOp`, if any. -/
def winOpEntry? : WinOp → Option LogEntry
  | .addOp e _ => some e
  | .setDurOp _ _ => none

/-- The last (up to) five elements of an event list, oldest dropped
first. -/
def takeLastFive (l : List EmergingPatternEvent) : List EmergingPatternEvent :=
  l.drop (l.length - 5)

/-- The significant patterns the emerging-pattern scan selects, as a
filter-map over the tracked patterns. -/
def emergingSig (w : SlidingWindow) (now : Int)
    (l : List (String × ErrorPattern)) : List (String × ℚ) :=
  l.filterMap (fun tp =>
    let change := w.GetErrorChange tp.1 15 15 now
    if 100 < change then some (tp.1, change) else none)

/-- A pattern-tracker call of the claim: an `UpdatePattern` or a
`GetEmergingPatterns` (with the window it consults and its instant). -/
inductive PTCall where
  | updateCall (w : SlidingWindow) (e : LogEntry) (now : Int)
  | emergingCall (w : SlidingWindow) (now : Int)

/-- Run a sequence of tracker calls, collecting (in order) every event
appended to the pattern history by the emerging-patterns calls. -/
def runPTCalls (pt : PatternTracker) :
    List PTCall → PatternTracker × List EmergingPatternEvent
  | [] => (pt, [])
  | PTCall.updateCall w e now :: rest => runPTCalls (pt.UpdatePattern w e now) rest
  | PTCall.emergingCall w now :: rest =>
    let g := pt.GetEmergingPatterns w now
    let r := runPTCalls g.1 rest
    (r.1, g.2.map (fun pc => mkEmergingEvent pc.1 pc.2 now) ++ r.2)

theorem evictOne_entries (w : SlidingWindow) (e : LogEntry) (rest : List LogEntry) :
    (evictOne w e rest).entries = rest := by
  unfold evictOne
  split <;> rfl

example :
    ((((NewSlidingWindow 60).Add ⟨5, "ERROR", "ip", "m", "X", true⟩ 5).Add
      ⟨6, "INFO", "ip", "m", "", true⟩ 6)).totalCount = 2 := by decide

example :
    (((NewSlidingWindow 60).Add ⟨5, "ERROR", "ip", "m", "X", true⟩ 5).GetErrorChange
      "X" 15 15 10) = 100 := by decide

/-- C1.  On 1 Hz ticks the window-size arithmetic behaves as stated,
but `previous_window_size` is never assigned: two quiet ticks
(`current_rate = 0 < 600`) from the fresh controller drive the window
60 → 70 → 80, yet after the second transition both the internal stats
and the published snapshot still report `previous_window_size = 60`
where the claim requires 70 (the old window size). -/
theorem window_adaptation_previous_window_size_bug :
    (((NewAnalyzer 10000 0).generateStats 0).1.stats.windowSize = 70 ∧
      ((NewAnalyzer 10000 0).generateStats 0).1.stats.previousWindowSize = 60) ∧
    ((((NewAnalyzer 10000 0).generateStats 0).1.generateStats 1).1.stats.windowSize = 80 ∧
      (((NewAnalyzer 10000 0).generateStats 0).1.generateStats 1).1.stats.previousWindowSize
        = 60 ∧
      (((NewAnalyzer 10000 0).generateStats 0).1.generateStats 1).2.1.previousWindowSize
        = 60) := by
  with_unfolding_all decide

/-- C3.  Ingesting a valid ERROR entry does increment
`entries_processed` (the count itself is right in isolation), but the
increment runs on the unlocked branch (`buggyConcurrency = true` in
`NewAnalyzer`), while a non-ERROR entry is incremented under the
mutex — contradicting the claim that every increment is performed
under the controller's mutex. -/
theorem entries_processed_unlocked_increment_bug :
    (((NewAnalyzer 10000 0).processEntry ⟨0, "ERROR", "ip", "boom", "X", true⟩ 0).2.2 =
        [CounterEvent.incrProcessed false] ∧
      ((NewAnalyzer 10000 0).processEntry
          ⟨0, "ERROR", "ip", "boom", "X", true⟩ 0).1.stats.entriesProcessed = 1) ∧
    ((NewAnalyzer 10000 0).processEntry ⟨0, "INFO", "ip", "", "", true⟩ 0).2.2 =
      [CounterEvent.incrProcessed true] := by
  with_unfolding_all decide

/-- C9 counterexample.  With a single bucket at timestamp 10 and
`calculate_rate(121)` read at `now = 130`, the claim's
evict-then-average read yields 0 (the bucket, being 120 s old, would
have been evicted), but the code — which never evicts inside
`calculateRate` — returns 7. -/
theorem calculate_rate_no_eviction_counterexample :
    ({ NewAnalyzer 10000 0 with
        rateBuckets := [{ count := 7, timestamp := 10 }] } : Analyzer).calculateRate
      121 130 = 7 ∧
    claimEvictThenRate [{ count := 7, timestamp := 10 }] 121 130 = 0 := by
  with_unfolding_all decide

theorem foldl_rate_acc (cutoff : Int) (l : List RateBucket) (acc : Int × Int) :
    l.foldl (fun (acc : Int × Int) b =>
        if cutoff < b.timestamp then (acc.1 + b.count, acc.2 + 1) else acc) acc =
      (acc.1 + ((l.filter (fun b => cutoff < b.timestamp)).map RateBucket.count).sum,
       acc.2 + ((l.filter (fun b => cutoff < b.timestamp)).length : Int)) := by
  induction l generalizing acc with
  | nil => simp
  | cons b rest ih =>
    by_cases h : cutoff < b.timestamp
    · simp [h, ih, List.filter_cons]
      constructor <;> ring
    · simp [h, ih, List.filter_cons]

theorem foldl_keep_filter (cutoff : Int) (l : List RateBucket) (acc : List RateBucket) :
    l.foldl (fun acc b => if cutoff < b.timestamp then acc ++ [b] else acc) acc =
      acc ++ l.filter (fun b => cutoff < b.timestamp) := by
  induction l generalizing acc with
  | nil => simp
  | cons b rest ih =>
    by_cases h : cutoff < b.timestamp <;> simp [h, ih, List.filter_cons]

/-- C9 (amended).  `calculate_rate(seconds)` performs no eviction: it
returns the average of the counts of all currently stored buckets with
`timestamp > now - seconds` (0 when there are none); stale buckets with
`timestamp ≤ now - 120 s` are instead evicted by `updateRateBucket`
when a completed second-bucket is committed. -/
theorem calculate_rate_amended :
    (∀ (a : Analyzer) (seconds now : Int),
      a.calculateRate seconds now =
        if (a.rateBuckets.filter (fun b => now - seconds < b.timestamp)).length = 0 then 0
        else (((a.rateBuckets.filter (fun b => now - seconds < b.timestamp)).map
            RateBucket.count).sum : ℚ) /
          ((a.rateBuckets.filter (fun b => now - seconds < b.timestamp)).length : ℚ)) ∧
    (∀ (a : Analyzer) (ts cnt now : Int),
      (a.updateRateBucket ts cnt now).rateBuckets =
        (a.rateBuckets ++ [RateBucket.mk cnt ts]).filter
          (fun b => now - 120 < b.timestamp)) := by
  constructor
  · intro a seconds now
    simp only [Analyzer.calculateRate, foldl_rate_acc]
    simp
  · intro a ts cnt now
    simp only [Analyzer.updateRateBucket, foldl_keep_filter]
    simp

theorem changeScan_eq (rcut pcut : Int) (hle : pcut ≤ rcut) :
    ∀ (r : List LogEntry), r.Pairwise (fun a b => b.timestamp ≤ a.timestamp) →
    changeScan rcut pcut r =
      (r.countP (fun e => decide (rcut < e.timestamp)),
       r.countP (fun e => decide (pcut < e.timestamp) && decide (e.timestamp ≤ rcut))) := by
  intro r
  induction r with
  | nil => intro _; simp [changeScan]
  | cons e rest ih =>
    intro hsort
    have hrest := (List.pairwise_cons.mp hsort).2
    have hhead := (List.pairwise_cons.mp hsort).1
    by_cases h1 : rcut < e.timestamp
    · have hnot : ¬ e.timestamp ≤ rcut := not_le.mpr h1
      simp [changeScan, h1, ih hrest, List.countP_cons, hnot]
    · by_cases h2 : pcut < e.timestamp
      · have hin : e.timestamp ≤ rcut := not_lt.mp h1
        simp [changeScan, h1, h2, ih hrest, List.countP_cons, hin]
      · have hbreak : e.timestamp ≤ pcut := not_lt.mp h2
        have hz1 : rest.countP (fun e => decide (rcut < e.timestamp)) = 0 := by
          rw [List.countP_eq_zero]
          intro b hb
          simp only [decide_eq_true_eq]
          exact not_lt.mpr (le_trans (le_trans (hhead b hb) hbreak) hle)
        have hz2 : rest.countP
            (fun e => decide (pcut < e.timestamp) && decide (e.timestamp ≤ rcut)) = 0 := by
          rw [List.countP_eq_zero]
          intro b hb
          simp only [Bool.and_eq_true, decide_eq_true_eq, not_and]
          intro hb2
          exact absurd hb2 (not_lt.mpr (le_trans (hhead b hb) hbreak))
        simp [changeScan, h1, h2, List.countP_cons, hz1, hz2, not_lt.mp h1, hbreak,
          not_lt.mp h2]

/-- C4.  `GetErrorChange(t, recentSec, prevSec)` over a per-error list
with non-decreasing timestamps all at most `now` returns exactly the
claimed piecewise formula applied to `recent`, the number of entries in
`(now - recentSec, now]`, and `prev`, the number in
`(now - recentSec - prevSec, now - recentSec]`; an unknown error type
yields 0; and the formula satisfies `change(0,0) = 0`,
`change(r,0) = 100` for `r > 0`, `change(2p,p) = 100` and
`change(p,p) = 0` for `p > 0`. -/
theorem get_error_change_correct :
    (∀ (w : SlidingWindow) (t : String) (recentSec prevSec now : Int)
        (l : List LogEntry),
      assocFind? w.errorsByType t = some l →
      l.Pairwise (fun a b => a.timestamp ≤ b.timestamp) →
      (∀ e ∈ l, e.timestamp ≤ now) →
      0 ≤ recentSec → 0 ≤ prevSec →
      w.GetErrorChange t recentSec prevSec now =
        errChangeFormula
          (l.countP (fun e =>
            decide (now - recentSec < e.timestamp) && decide (e.timestamp ≤ now)))
          (l.countP (fun e =>
            decide (now - recentSec - prevSec < e.timestamp) &&
            decide (e.timestamp ≤ now - recentSec)))) ∧
    (∀ (w : SlidingWindow) (t : String) (recentSec prevSec now : Int),
      assocFind? w.errorsByType t = none →
      w.GetErrorChange t recentSec prevSec now = 0) ∧
    errChangeFormula 0 0 = 0 ∧
    (∀ r : Nat, 0 < r → errChangeFormula r 0 = 100) ∧
    (∀ p : Nat, 0 < p → errChangeFormula (2 * p) p = 100) ∧
    (∀ p : Nat, 0 < p → errChangeFormula p p = 0) := by
  refine ⟨?_, ?_, ?_, ?_, ?_, ?_⟩
  · intro w t recentSec prevSec now l hfind hsort hbound hrs hps
    have hflip : l.reverse.Pairwise (fun a b => b.timestamp ≤ a.timestamp) :=
      List.pairwise_reverse.mpr hsort
    have hle : now - recentSec - prevSec ≤ now - recentSec := by omega
    simp only [SlidingWindow.GetErrorChange, hfind]
    rw [changeScan_eq _ _ hle l.reverse hflip]
    simp only [List.countP_reverse]
    congr 1
    exact List.countP_congr fun e he => by
      simp only [Bool.and_eq_true, decide_eq_true_eq]
      exact ⟨fun h => ⟨h, hbound e he⟩, fun h => h.1⟩
  · intro w t recentSec prevSec now hfind
    simp [SlidingWindow.GetErrorChange, hfind]
  · simp [errChangeFormula]
  · intro r hr
    simp [errChangeFormula, hr]
  · intro p hp
    have hp' : (p : ℚ) ≠ 0 := by positivity
    simp only [errChangeFormula, Nat.mul_eq_zero, OfNat.ofNat_ne_zero, false_or]
    rw [if_neg (by omega)]
    push_cast
    field_simp
    ring
  · intro p hp
    simp only [errChangeFormula]
    rw [if_neg (by omega)]
    simp

/-- Witness for C4: a concrete window holding three `"X"` errors at
timestamps 1, 16, 17 observed at `now = 30` gives `recent = 2`,
`prev = 1` and change `100`. -/
theorem get_error_change_correct_witness :
    ((((NewSlidingWindow 60).Add ⟨1, "ERROR", "i", "m", "X", true⟩ 1).Add
        ⟨16, "ERROR", "i", "m", "X", true⟩ 16).Add
        ⟨17, "ERROR", "i", "m", "X", true⟩ 17).GetErrorChange "X" 15 15 30 =
      errChangeFormula 2 1 := by
  have h := get_error_change_correct.1
    ((((NewSlidingWindow 60).Add ⟨1, "ERROR", "i", "m", "X", true⟩ 1).Add
        ⟨16, "ERROR", "i", "m", "X", true⟩ 16).Add
        ⟨17, "ERROR", "i", "m", "X", true⟩ 17) "X" 15 15 30
    [⟨1, "ERROR", "i", "m", "X", true⟩, ⟨16, "ERROR", "i", "m", "X", true⟩,
      ⟨17, "ERROR", "i", "m", "X", true⟩]
    (by with_unfolding_all decide)
    (by decide) (by decide) (by decide) (by decide)
  rw [h]
  with_unfolding_all decide

theorem assocFind?_upd_const {α : Type} (m : List (String × α)) (k : String) (d : α)
    (v : α) : assocFind? (assocUpd m k d (fun _ => v)) k = some v := by
  induction m with
  | nil => simp [assocUpd, assocFind?]
  | cons kv rest ih =>
    by_cases h : kv.1 = k
    · simp [assocUpd, assocFind?, h]
    · simpa [assocUpd, assocFind?, h] using ih

/-- C5.  When `UpdatePattern` rotates the history (more than 10 s since
`last_updated`), the updated pattern carries the incremented count, the
rotated history `newRate :: old.take 4`, the new stamp, and a weight
that is exactly `3 ·` the prior weight when the post-rotation
`rate_history[0]` and `rate_history[1]` are positive with
`rate_history[0] ≥ 4 · rate_history[1]`, and is unchanged in every
other case. -/
theorem update_pattern_spike_rule (pt : PatternTracker) (w : SlidingWindow)
    (entry : LogEntry) (now : Int) (p : ErrorPattern)
    (hlevel : entry.level = "ERROR") (htype : entry.errorType ≠ "")
    (hfind : assocFind? pt.patterns entry.errorType = some p)
    (hsize : pt.historySize = 5) (hlen : p.rateHistory.length = 5)
    (hrot : 10 < now - p.lastUpdated) :
    assocFind? (pt.UpdatePattern w entry now).patterns entry.errorType =
      some { count := p.count + 1
             lastUpdated := now
             rateHistory :=
               w.GetErrorRate entry.errorType 10 now :: p.rateHistory.take 4
             weight :=
               if 0 < w.GetErrorRate entry.errorType 10 now ∧
                   0 < p.rateHistory.headD 0 ∧
                   4 * p.rateHistory.headD 0 ≤ w.GetErrorRate entry.errorType 10 now
               then p.weight * 3 else p.weight } := by
  obtain ⟨a, t, ht⟩ : ∃ a t, p.rateHistory = a :: t := by
    cases hrh : p.rateHistory with
    | nil => rw [hrh] at hlen; simp at hlen
    | cons a t => exact ⟨a, t, rfl⟩
  have hguard : ¬(entry.level != "ERROR" || entry.errorType == "") = true := by
    simp [hlevel, htype]
  unfold PatternTracker.UpdatePattern
  rw [if_neg hguard, hfind]
  simp only [hsize, if_pos hrot]
  rw [assocFind?_upd_const]
  congr 1
  have hgetd0 :
      (w.GetErrorRate entry.errorType 10 now :: (a :: t).take 4).getD 0 0 =
        w.GetErrorRate entry.errorType 10 now := rfl
  have hgetd1 :
      (w.GetErrorRate entry.errorType 10 now :: (a :: t).take 4).getD 1 0 = a := by
    simp [List.take]
  have hlen2 :
      2 ≤ (w.GetErrorRate entry.errorType 10 now :: (a :: t).take 4).length := by
    simp [List.take]
  by_cases hc : 0 < w.GetErrorRate entry.errorType 10 now ∧ 0 < a ∧
      4 * a ≤ w.GetErrorRate entry.errorType 10 now
  · rw [ht]
    rw [if_pos ⟨hlen2, by rw [hgetd0]; exact hc.1, by rw [hgetd1]; exact hc.2.1,
      by rw [hgetd0, hgetd1]; exact hc.2.2⟩]
    simp only [List.headD_cons]
    rw [if_pos ⟨hc.1, hc.2.1, hc.2.2⟩]
  · rw [ht]
    rw [if_neg (by
      rw [not_and_or, not_and_or, not_and_or]
      rcases not_and_or.mp hc with h1 | h23
      · exact Or.inr (Or.inl (by rw [hgetd0]; exact h1))
      · rcases not_and_or.mp h23 with h2 | h3
        · exact Or.inr (Or.inr (Or.inl (by rw [hgetd1]; exact h2)))
        · exact Or.inr (Or.inr (Or.inr (by rw [hgetd0, hgetd1]; exact h3))))]
    simp only [List.headD_cons]
    rw [if_neg (by simpa using hc)]

/-- Witness for C5: a pattern for `"X"` with prior weight 2 and history
head 1/20 rotates at `now = 20` against a window holding two recent
`"X"` errors (`new rate = 1/5 = 4 · (1/20)`), tripling the weight
to 6. -/
theorem update_pattern_spike_rule_witness :
    assocFind?
      ((({ patterns := [("X", ⟨3, 2, 0, [1/20, 0, 0, 0, 0]⟩)], historySize := 5,
            patternHistory := [] } : PatternTracker).UpdatePattern
          (((NewSlidingWindow 60).Add ⟨19, "ERROR", "i", "m", "X", true⟩ 19).Add
            ⟨20, "ERROR", "i", "m", "X", true⟩ 20)
          ⟨20, "ERROR", "i", "m", "X", true⟩ 20).patterns) "X" =
      some { count := 4
             lastUpdated := 20
             rateHistory :=
               (((NewSlidingWindow 60).Add ⟨19, "ERROR", "i", "m", "X", true⟩ 19).Add
                 ⟨20, "ERROR", "i", "m", "X", true⟩ 20).GetErrorRate "X" 10 20 ::
                 ([1/20, 0, 0, 0, 0] : List ℚ).take 4
             weight :=
               if 0 < (((NewSlidingWindow 60).Add ⟨19, "ERROR", "i", "m", "X", true⟩
                     19).Add ⟨20, "ERROR", "i", "m", "X", true⟩ 20).GetErrorRate "X" 10 20 ∧
                   0 < ([1/20, 0, 0, 0, 0] : List ℚ).headD 0 ∧
                   4 * ([1/20, 0, 0, 0, 0] : List ℚ).headD 0 ≤
                     (((NewSlidingWindow 60).Add ⟨19, "ERROR", "i", "m", "X", true⟩
                       19).Add ⟨20, "ERROR", "i", "m", "X", true⟩ 20).GetErrorRate "X" 10 20
               then (2 : ℚ) * 3 else 2 } := by
  exact update_pattern_spike_rule
    ({ patterns := [("X", ⟨3, 2, 0, [1/20, 0, 0, 0, 0]⟩)], historySize := 5,
        patternHistory := [] } : PatternTracker)
    (((NewSlidingWindow 60).Add ⟨19, "ERROR", "i", "m", "X", true⟩ 19).Add
      ⟨20, "ERROR", "i", "m", "X", true⟩ 20)
    ⟨20, "ERROR", "i", "m", "X", true⟩ 20 ⟨3, 2, 0, [1/20, 0, 0, 0, 0]⟩
    rfl (by decide) (by with_unfolding_all decide) rfl rfl (by decide)

theorem mem_of_assocFind? {α : Type} (m : List (String × α)) (k : String) (v : α)
    (h : assocFind? m k = some v) : (k, v) ∈ m := by
  induction m with
  | nil => simp [assocFind?] at h
  | cons kv rest ih =>
    obtain ⟨k1, v1⟩ := kv
    by_cases hk : k1 = k
    · rw [assocFind?, if_pos hk] at h
      subst hk
      cases Option.some.inj h
      exact List.mem_cons_self _ _
    · rw [assocFind?, if_neg hk] at h
      exact List.mem_cons_of_mem _ (ih h)

theorem assocUpd_const_forall {α : Type} (P : α → Prop) (m : List (String × α))
    (k : String) (d : α) (v : α) (hm : ∀ tp ∈ m, P tp.2) (hv : P v) :
    ∀ tp ∈ assocUpd m k d (fun _ => v), P tp.2 := by
  induction m with
  | nil =>
    intro tp htp
    simp only [assocUpd, List.mem_singleton] at htp
    rw [htp]
    exact hv
  | cons kv rest ih =>
    intro tp htp
    by_cases hk : kv.1 = k
    · rw [assocUpd, if_pos hk] at htp
      rcases List.mem_cons.mp htp with h | h
      · rw [h]; exact hv
      · exact hm tp (List.mem_cons_of_mem _ h)
    · rw [assocUpd, if_neg hk] at htp
      rcases List.mem_cons.mp htp with h | h
      · rw [h]; exact hm kv (List.mem_cons_self _ _)
      · exact ih (fun tp htp => hm tp (List.mem_cons_of_mem _ htp)) tp h

theorem updatePattern_preserves_zero (pt : PatternTracker) (w : SlidingWindow)
    (e : LogEntry) (now : Int) (h : ∀ tp ∈ pt.patterns, (tp.2).weight = 0) :
    ∀ tp ∈ (pt.UpdatePattern w e now).patterns, (tp.2).weight = 0 := by
  unfold PatternTracker.UpdatePattern
  by_cases hg : (e.level != "ERROR" || e.errorType == "") = true
  · rw [if_pos hg]; exact h
  · rw [if_neg hg]
    cases hfind : assocFind? pt.patterns e.errorType with
    | none =>
      simp only [hfind]
      apply assocUpd_const_forall (fun q : ErrorPattern => q.weight = 0) _ _ _ _ h
      split
      · split
        · simp
        · simp
      · simp
    | some p =>
      have hp : p.weight = 0 := h _ (mem_of_assocFind? _ _ _ hfind)
      simp only [hfind]
      apply assocUpd_const_forall (fun q : ErrorPattern => q.weight = 0) _ _ _ _ h
      split
      · split
        · simp [hp]
        · simp [hp]
      · simp [hp]

/-- C6.  Starting from a fresh `PatternTracker`, after any sequence of
`UpdatePattern` calls every tracked pattern's weight is still 0:
patterns are created with the Go zero weight and the only modification
ever applied is `weight = weight * 3`. -/
theorem pattern_weight_permanently_zero
    (ops : List (SlidingWindow × LogEntry × Int)) :
    allWeightsZero (runPatternUpdates NewPatternTracker ops) = true := by
  have main : ∀ (ops : List (SlidingWindow × LogEntry × Int)) (pt : PatternTracker),
      (∀ tp ∈ pt.patterns, (tp.2).weight = 0) →
      ∀ tp ∈ (runPatternUpdates pt ops).patterns, (tp.2).weight = 0 := by
    intro ops
    induction ops with
    | nil => intro pt h; exact h
    | cons op rest ih =>
      intro pt h
      exact ih _ (updatePattern_preserves_zero pt op.1 op.2.1 op.2.2 h)
  rw [allWeightsZero, List.all_eq_true]
  intro tp htp
  simpa using main ops NewPatternTracker (by simp [NewPatternTracker]) tp htp

theorem updateRateBucket_fields (a : Analyzer) (ts cnt now : Int) :
    (a.updateRateBucket ts cnt now).window = a.window ∧
    (a.updateRateBucket ts cnt now).patternTracker = a.patternTracker ∧
    (a.updateRateBucket ts cnt now).stats = a.stats ∧
    (a.updateRateBucket ts cnt now).skippedEntries = a.skippedEntries ∧
    (a.updateRateBucket ts cnt now).bufferSize = a.bufferSize := by
  unfold Analyzer.updateRateBucket
  exact ⟨rfl, rfl, rfl, rfl, rfl⟩

theorem processEntry_counters (a : Analyzer) (e : LogEntry) (now : Int) :
    (a.processEntry e now).1.stats.entriesProcessed =
        a.stats.entriesProcessed + (if e.isValid then 1 else 0) ∧
    (a.processEntry e now).1.skippedEntries =
        a.skippedEntries + (if e.isValid then 0 else 1) := by
  unfold Analyzer.processEntry
  by_cases hb : (now != a.secondBucket) = true <;>
    by_cases hv : e.isValid <;>
      simp [hb, hv, Analyzer.updateRateBucket] <;> split <;> simp

theorem processEntry_invalid (a : Analyzer) (e : LogEntry) (now : Int)
    (hv : e.isValid = false) :
    (a.processEntry e now).1.window = a.window ∧
    (a.processEntry e now).1.patternTracker = a.patternTracker ∧
    (a.processEntry e now).1.stats.entriesProcessed = a.stats.entriesProcessed ∧
    (a.processEntry e now).1.skippedEntries = a.skippedEntries + 1 ∧
    (a.processEntry e now).2.1 = [] := by
  unfold Analyzer.processEntry
  by_cases hb : (now != a.secondBucket) = true <;>
    simp [hb, hv, Analyzer.updateRateBucket]

theorem runEntries_counters (es : List (LogEntry × Int)) :
    ∀ a : Analyzer,
      (a.runEntries es).1.stats.entriesProcessed =
          a.stats.entriesProcessed + (es.countP (fun p => p.1.isValid)) ∧
      (a.runEntries es).1.skippedEntries =
          a.skippedEntries + (es.countP (fun p => !p.1.isValid)) := by
  induction es with
  | nil => intro a; simp [Analyzer.runEntries]
  | cons p rest ih =>
    intro a
    have hstep := processEntry_counters a p.1 p.2
    have htail := ih (a.processEntry p.1 p.2).1
    rw [Analyzer.runEntries]
    constructor
    · rw [htail.1, hstep.1, List.countP_cons]
      by_cases hv : p.1.isValid <;> simp [hv]
      all_goals omega
    · rw [htail.2, hstep.2, List.countP_cons]
      by_cases hv : p.1.isValid <;> simp [hv]
      all_goals omega

set_option maxRecDepth 4000 in
/-- C10.  An invalid entry only bumps `skipped_entries`: it is never
added to the window, never reaches the pattern tracker, and never
increments `entries_processed`; over any run, `entries_processed` grows
by the number of valid entries and `skipped_entries` by the number of
invalid ones; in particular 100 valid plus 5 malformed entries yield
`entries_processed = 100` and `skipped_entries = 5`. -/
theorem invalid_entries_skipped :
    (∀ (a : Analyzer) (e : LogEntry) (now : Int), e.isValid = false →
      (a.processEntry e now).1.window = a.window ∧
      (a.processEntry e now).1.patternTracker = a.patternTracker ∧
      (a.processEntry e now).1.stats.entriesProcessed = a.stats.entriesProcessed ∧
      (a.processEntry e now).1.skippedEntries = a.skippedEntries + 1) ∧
    (∀ (a : Analyzer) (es : List (LogEntry × Int)),
      (a.runEntries es).1.stats.entriesProcessed =
          a.stats.entriesProcessed + es.countP (fun p => p.1.isValid) ∧
      (a.runEntries es).1.skippedEntries =
          a.skippedEntries + es.countP (fun p => !p.1.isValid)) ∧
    ((NewAnalyzer 10000 0).runEntries
        (List.replicate 100 (⟨0, "INFO", "ip", "m", "", true⟩, 0) ++
          List.replicate 5 (⟨0, "INFO", "ip", "bad", "", false⟩, 0))).1.stats.entriesProcessed
      = 100 ∧
    ((NewAnalyzer 10000 0).runEntries
        (List.replicate 100 (⟨0, "INFO", "ip", "m", "", true⟩, 0) ++
          List.replicate 5 (⟨0, "INFO", "ip", "bad", "", false⟩, 0))).1.skippedEntries
      = 5 := by
  refine ⟨?_, ?_, ?_, ?_⟩
  · intro a e now hv
    have h := processEntry_invalid a e now hv
    exact ⟨h.1, h.2.1, h.2.2.1, h.2.2.2.1⟩
  · intro a es
    exact runEntries_counters es a
  · rw [(runEntries_counters _ (NewAnalyzer 10000 0)).1]
    decide
  · rw [(runEntries_counters _ (NewAnalyzer 10000 0)).2]
    decide

/-- Witness for C10: the invalid-entry clause at a concrete malformed
entry against the fresh controller. -/
theorem invalid_entries_skipped_witness :
    ((NewAnalyzer 10000 0).processEntry ⟨0, "INFO", "ip", "bad", "", false⟩ 0).1.window =
        (NewAnalyzer 10000 0).window ∧
      ((NewAnalyzer 10000 0).processEntry
          ⟨0, "INFO", "ip", "bad", "", false⟩ 0).1.patternTracker =
        (NewAnalyzer 10000 0).patternTracker ∧
      ((NewAnalyzer 10000 0).processEntry
          ⟨0, "INFO", "ip", "bad", "", false⟩ 0).1.stats.entriesProcessed =
        (NewAnalyzer 10000 0).stats.entriesProcessed ∧
      ((NewAnalyzer 10000 0).processEntry
          ⟨0, "INFO", "ip", "bad", "", false⟩ 0).1.skippedEntries =
        (NewAnalyzer 10000 0).skippedEntries + 1 :=
  invalid_entries_skipped.1 (NewAnalyzer 10000 0) ⟨0, "INFO", "ip", "bad", "", false⟩ 0 rfl

theorem processEntry_burst_rule (a : Analyzer) (e : LogEntry) (now : Int)
    (hv : e.isValid = true) :
    (a.processEntry e now).1.secondCount =
        (if now = a.secondBucket then a.secondCount else 0) + 1 ∧
    (a.processEntry e now).1.secondBucket = now ∧
    (if ((a.bufferSize : ℚ) * (4 / 5)).floor <
        (if now = a.secondBucket then a.secondCount else 0) + 1 then
      (a.processEntry e now).2.1 =
          [Alert.burst ((if now = a.secondBucket then a.secondCount else 0) + 1)
            (((a.bufferSize : ℚ) * (3 / 2)).floor)] ∧
        (a.processEntry e now).1.bufferSize = ((a.bufferSize : ℚ) * (3 / 2)).floor ∧
        (a.processEntry e now).1.bufferResized = true
    else
      (a.processEntry e now).2.1 = [] ∧
      (a.processEntry e now).1.bufferSize = a.bufferSize ∧
      (a.processEntry e now).1.bufferResized = a.bufferResized) := by
  unfold Analyzer.processEntry
  by_cases hb : now = a.secondBucket
  · have hbne : (now != a.secondBucket) = false := by simp [hb]
    simp only [hbne, Bool.false_eq_true, if_false, hv, Bool.not_true, if_pos hb]
    by_cases hc : ((a.bufferSize : ℚ) * (4 / 5)).floor < a.secondCount + 1 <;>
      simp [hc, hb]
  · have hbne : (now != a.secondBucket) = true := by simp [hb]
    simp only [hbne, if_true, hv, Bool.not_true, if_neg hb, Analyzer.updateRateBucket]
    by_cases hc : ((a.bufferSize : ℚ) * (4 / 5)).floor < (1 : Int) <;>
      simp [hc]

theorem runEntries_append (l1 l2 : List (LogEntry × Int)) :
    ∀ a : Analyzer,
      (a.runEntries (l1 ++ l2)).1 = ((a.runEntries l1).1.runEntries l2).1 ∧
      (a.runEntries (l1 ++ l2)).2.1 =
        (a.runEntries l1).2.1 ++ ((a.runEntries l1).1.runEntries l2).2.1 := by
  induction l1 with
  | nil => intro a; simp [Analyzer.runEntries]
  | cons p rest ih =>
    intro a
    rw [List.cons_append, Analyzer.runEntries, Analyzer.runEntries]
    have h := ih (a.processEntry p.1 p.2).1
    rw [h.1, h.2]
    simp

theorem run_same_second_no_burst (n : Nat) :
    ∀ a : Analyzer, a.secondBucket = 0 →
    (a.secondCount + n : Int) ≤ ((a.bufferSize : ℚ) * (4 / 5)).floor →
    (a.runEntries (List.replicate n (burstProbeEntry, 0))).2.1 = [] ∧
    (a.runEntries (List.replicate n (burstProbeEntry, 0))).1.secondCount =
      a.secondCount + n ∧
    (a.runEntries (List.replicate n (burstProbeEntry, 0))).1.bufferSize = a.bufferSize ∧
    (a.runEntries (List.replicate n (burstProbeEntry, 0))).1.secondBucket = 0 := by
  induction n with
  | zero => intro a hb _; simpa [Analyzer.runEntries] using hb
  | succ n ih =>
    intro a hb hle
    have hrule := processEntry_burst_rule a burstProbeEntry 0 rfl
    have hbeq : (0 : Int) = a.secondBucket := hb.symm
    rw [if_pos hbeq] at hrule
    have hnc : ¬ ((a.bufferSize : ℚ) * (4 / 5)).floor < a.secondCount + 1 := by
      push_cast at hle
      omega
    rw [if_neg hnc] at hrule
    have htail := ih (a.processEntry burstProbeEntry 0).1
      (by rw [hrule.2.1])
      (by rw [hrule.1, hrule.2.2.2.1]; push_cast at hle ⊢; omega)
    rw [List.replicate_succ, Analyzer.runEntries]
    refine ⟨?_, ?_, ?_, ?_⟩
    · simp only [hrule.2.2.1, htail.1]
      rfl
    · simp only [htail.2.1, hrule.1]
      push_cast
      ring
    · rw [htail.2.2.1, hrule.2.2.2.1]
    · exact htail.2.2.2

theorem runEntries_cons_alerts (a : Analyzer) (e : LogEntry) (now : Int)
    (rest : List (LogEntry × Int)) :
    (a.runEntries ((e, now) :: rest)).2.1 =
      (a.processEntry e now).2.1 ++ ((a.processEntry e now).1.runEntries rest).2.1 := by
  rw [Analyzer.runEntries]

set_option maxRecDepth 8000 in
theorem run450_burst_alert_eq :
    ((NewAnalyzer 500 0).runEntries
        (List.replicate 450 (burstProbeEntry, 0))).2.1 = [Alert.burst 401 750] := by
  have hsplit : List.replicate 450 ((burstProbeEntry, 0) : LogEntry × Int) =
      List.replicate 400 (burstProbeEntry, 0) ++
        ((burstProbeEntry, 0) :: List.replicate 49 (burstProbeEntry, 0)) := by
    rw [← List.replicate_succ]
    rw [← List.replicate_add]
  have h400 := run_same_second_no_burst 400 (NewAnalyzer 500 0) rfl
    (by with_unfolding_all decide)
  set S400 := ((NewAnalyzer 500 0).runEntries
    (List.replicate 400 (burstProbeEntry, 0))).1 with hS400
  have hrule := processEntry_burst_rule S400 burstProbeEntry 0 rfl
  rw [if_pos h400.2.2.2.symm] at hrule
  have hcond : ((S400.bufferSize : ℚ) * (4 / 5)).floor < S400.secondCount + 1 := by
    rw [h400.2.2.1, h400.2.1]
    with_unfolding_all decide
  rw [if_pos hcond] at hrule
  have hburst : (S400.processEntry burstProbeEntry 0).2.1 = [Alert.burst 401 750] := by
    rw [hrule.2.2.1]
    rw [h400.2.1, h400.2.2.1]
    with_unfolding_all decide
  set S401 := (S400.processEntry burstProbeEntry 0).1 with hS401
  have hS401count : S401.secondCount = 401 := by
    rw [hrule.1, h400.2.1]
    with_unfolding_all decide
  have hS401buf : S401.bufferSize = 750 := by
    rw [hrule.2.2.2.1, h400.2.2.1]
    with_unfolding_all decide
  have h49 := run_same_second_no_burst 49 S401 hrule.2.1
    (by
      rw [hS401count, hS401buf]
      with_unfolding_all decide)
  rw [hsplit]
  rw [(runEntries_append _ _ (NewAnalyzer 500 0)).2]
  rw [h400.1]
  rw [List.nil_append]
  rw [runEntries_cons_alerts]
  rw [hburst]
  rw [← hS401]
  rw [h49.1]
  rfl

/-- C2 counterexample.  With `buffer_size = 500`, feeding 450 valid
entries within a single wall-second does produce a burst alert — the
401st entry crosses `0.8 · 500 = 400` and emits
`Burst detected: 401 entries in 1 sec, resized buffer to 750` — so the
claimed "no burst alert" for 450 entries is false. -/
theorem burst_450_entries_alert_counterexample :
    ((NewAnalyzer 500 0).runEntries
        (List.replicate 450 (burstProbeEntry, 0))).2.1 = [Alert.burst 401 750] ∧
    ((NewAnalyzer 500 0).runEntries
        (List.replicate 450 (burstProbeEntry, 0))).2.1 ≠ [] := by
  refine ⟨run450_burst_alert_eq, ?_⟩
  rw [run450_burst_alert_eq]
  simp

/-- C2 (amended).  Per ingested valid entry, if the running per-second
count (after increment) exceeds `⌊0.8 · buffer_size⌋` then
`buffer_size` becomes `⌊buffer_size · 1.5⌋`, `buffer_resized` is set,
and a burst alert naming the count and the new size is emitted, else
nothing changes; with `buffer_size = 500`, feeding 400 entries in one
wall-second produces no burst alert, while feeding 450 produces exactly
one burst alert, at the 401st entry, with `new_buffer_size = 750`. -/
theorem burst_detection_amended :
    (∀ (a : Analyzer) (e : LogEntry) (now : Int), e.isValid = true →
      (a.processEntry e now).1.secondCount =
          (if now = a.secondBucket then a.secondCount else 0) + 1 ∧
      (if ((a.bufferSize : ℚ) * (4 / 5)).floor <
          (if now = a.secondBucket then a.secondCount else 0) + 1 then
        (a.processEntry e now).2.1 =
            [Alert.burst ((if now = a.secondBucket then a.secondCount else 0) + 1)
              (((a.bufferSize : ℚ) * (3 / 2)).floor)] ∧
          (a.processEntry e now).1.bufferSize = ((a.bufferSize : ℚ) * (3 / 2)).floor ∧
          (a.processEntry e now).1.bufferResized = true
      else
        (a.processEntry e now).2.1 = [] ∧
        (a.processEntry e now).1.bufferSize = a.bufferSize ∧
        (a.processEntry e now).1.bufferResized = a.bufferResized)) ∧
    ((NewAnalyzer 500 0).runEntries
        (List.replicate 400 (burstProbeEntry, 0))).2.1 = [] ∧
    ((NewAnalyzer 500 0).runEntries
        (List.replicate 450 (burstProbeEntry, 0))).2.1 = [Alert.burst 401 750] := by
  refine ⟨?_, ?_, run450_burst_alert_eq⟩
  · intro a e now hv
    have h := processEntry_burst_rule a e now hv
    exact ⟨h.1, h.2.2⟩
  · exact (run_same_second_no_burst 400 (NewAnalyzer 500 0) rfl
      (by with_unfolding_all decide)).1

/-- Witness for C2: the per-entry burst rule applied to the fresh
controller with buffer 500 and one valid entry (count 1, threshold
400: no alert, buffer unchanged). -/
theorem burst_detection_amended_witness :
    ((NewAnalyzer 500 0).processEntry burstProbeEntry 0).1.secondCount =
        (if (0 : Int) = (NewAnalyzer 500 0).secondBucket
          then (NewAnalyzer 500 0).secondCount else 0) + 1 ∧
    (if (((NewAnalyzer 500 0).bufferSize : ℚ) * (4 / 5)).floor <
        (if (0 : Int) = (NewAnalyzer 500 0).secondBucket
          then (NewAnalyzer 500 0).secondCount else 0) + 1 then
      ((NewAnalyzer 500 0).processEntry burstProbeEntry 0).2.1 =
          [Alert.burst ((if (0 : Int) = (NewAnalyzer 500 0).secondBucket
              then (NewAnalyzer 500 0).secondCount else 0) + 1)
            ((((NewAnalyzer 500 0).bufferSize : ℚ) * (3 / 2)).floor)] ∧
        ((NewAnalyzer 500 0).processEntry burstProbeEntry 0).1.bufferSize =
          (((NewAnalyzer 500 0).bufferSize : ℚ) * (3 / 2)).floor ∧
        ((NewAnalyzer 500 0).processEntry burstProbeEntry 0).1.bufferResized = true
    else
      ((NewAnalyzer 500 0).processEntry burstProbeEntry 0).2.1 = [] ∧
      ((NewAnalyzer 500 0).processEntry burstProbeEntry 0).1.bufferSize =
        (NewAnalyzer 500 0).bufferSize ∧
      ((NewAnalyzer 500 0).processEntry burstProbeEntry 0).1.bufferResized =
        (NewAnalyzer 500 0).bufferResized) :=
  burst_detection_amended.1 (NewAnalyzer 500 0) burstProbeEntry 0 rfl

theorem assocGetD_upd_self {α : Type} (m : List (String × α)) (k : String) (d : α)
    (f : α → α) : assocGetD (assocUpd m k d f) k d = f (assocGetD m k d) := by
  induction m with
  | nil => simp [assocUpd, assocGetD]
  | cons kv rest ih =>
    by_cases h : kv.1 = k
    · simp [assocUpd, assocGetD, h]
    · simpa [assocUpd, assocGetD, h] using ih

theorem assocGetD_upd_other {α : Type} (m : List (String × α)) (k t : String) (d d' : α)
    (f : α → α) (hne : t ≠ k) :
    assocGetD (assocUpd m k d f) t d' = assocGetD m t d' := by
  have hkt : ¬ (k = t) := fun h => hne h.symm
  have htk : ¬ (t = k) := hne
  induction m with
  | nil => simp [assocUpd, assocGetD, hkt]
  | cons kv rest ih =>
    by_cases h : kv.1 = k
    · have h2 : ¬ kv.1 = t := by rw [h]; exact hkt
      simp [assocUpd, assocGetD, h, h2, hkt]
    · by_cases h2 : kv.1 = t <;> simp [assocUpd, assocGetD, h, h2, ih, htk]

theorem assocGetD_modify_self {α : Type} (m : List (String × α)) (k : String) (d : α)
    (f : α → α) (hpresent : assocFind? m k ≠ none) :
    assocGetD (assocModify m k f) k d = f (assocGetD m k d) := by
  induction m with
  | nil => simp [assocFind?] at hpresent
  | cons kv rest ih =>
    by_cases h : kv.1 = k
    · simp [assocModify, assocGetD, h]
    · rw [assocFind?, if_neg h] at hpresent
      simpa [assocModify, assocGetD, h] using ih hpresent

theorem assocGetD_modify_other {α : Type} (m : List (String × α)) (k t : String)
    (d : α) (f : α → α) (hne : t ≠ k) :
    assocGetD (assocModify m k f) t d = assocGetD m t d := by
  have hkt : ¬ (k = t) := fun h => hne h.symm
  have htk : ¬ (t = k) := hne
  induction m with
  | nil => simp [assocModify]
  | cons kv rest ih =>
    by_cases h : kv.1 = k
    · have h2 : ¬ kv.1 = t := by rw [h]; exact hkt
      simp [assocModify, assocGetD, h, h2, hkt]
    · by_cases h2 : kv.1 = t <;> simp [assocModify, assocGetD, h, h2, ih, htk]

theorem assocGetD_of_find_none {α : Type} (m : List (String × α)) (k : String) (d : α)
    (h : assocFind? m k = none) : assocGetD m k d = d := by
  induction m with
  | nil => simp [assocGetD]
  | cons kv rest ih =>
    by_cases hk : kv.1 = k
    · rw [assocFind?, if_pos hk] at h
      cases h
    · rw [assocFind?, if_neg hk] at h
      simpa [assocGetD, hk] using ih h

theorem sumVals_upd_add (m : List (String × Int)) (k : String) (c : Int) :
    sumVals (assocUpd m k 0 (· + c)) = sumVals m + c := by
  induction m with
  | nil => simp [assocUpd, sumVals]
  | cons kv rest ih =>
    by_cases h : kv.1 = k
    · simp [assocUpd, sumVals, h]
      ring
    · simp [assocUpd, sumVals, h, ih]
      ring

theorem sumVals_upd_sub (m : List (String × Int)) (k : String) :
    sumVals (assocUpd m k 0 (· - 1)) = sumVals m - 1 := by
  induction m with
  | nil => simp [assocUpd, sumVals]
  | cons kv rest ih =>
    by_cases h : kv.1 = k
    · simp [assocUpd, sumVals, h]
      ring
    · simp [assocUpd, sumVals, h, ih]
      ring

theorem errPred_false_of_guard_false (e : LogEntry)
    (hg : ¬ (e.level == "ERROR" && e.errorType != "") = true) (t : String) :
    errPred t e = false := by
  simp only [Bool.and_eq_true, beq_iff_eq, bne_iff_ne, not_and, Decidable.not_not] at hg
  by_cases hl : e.level = "ERROR"
  · have het : e.errorType = "" := hg hl
    by_cases ht : t = ""
    · simp [errPred, ht]
    · simp [errPred, het, Ne.symm ht]
  · simp [errPred, hl]

theorem errPred_true_self (e : LogEntry)
    (hg : (e.level == "ERROR" && e.errorType != "") = true) :
    errPred e.errorType e = true := by
  simp only [Bool.and_eq_true, beq_iff_eq, bne_iff_ne] at hg
  simp [errPred, hg.1, hg.2]

theorem errPred_false_other (e : LogEntry) (t : String) (hne : t ≠ e.errorType) :
    errPred t e = false := by
  simp [errPred, Ne.symm hne]

theorem evictOne_inv (w : SlidingWindow) (e : LogEntry) (rest : List LogEntry)
    (hent : w.entries = e :: rest) (hw : WinInv w) : WinInv (evictOne w e rest) := by
  obtain ⟨h1, h2, h3, h4⟩ := hw
  rw [hent] at h1 h2 h3 h4
  unfold evictOne
  by_cases hg : (e.level == "ERROR" && e.errorType != "") = true
  · rw [if_pos hg]
    refine ⟨?_, ?_, ?_, ?_⟩
    · simp only [h1, List.length_cons]
      push_cast
      ring
    · simp only [sumVals_upd_sub, h2, List.length_cons]
      push_cast
      ring
    · intro t
      rcases eq_or_ne t e.errorType with ht | ht
      · rw [ht]
        have hfilter : (e :: rest).filter (errPred e.errorType) =
            e :: rest.filter (errPred e.errorType) :=
          List.filter_cons_of_pos (errPred_true_self e hg)
        have hpresent : assocFind? w.errorsByType e.errorType ≠ none := by
          intro hnone
          have hd := assocGetD_of_find_none w.errorsByType e.errorType [] hnone
          have h3t := h3 e.errorType
          rw [hd, hfilter] at h3t
          exact List.noConfusion h3t
        rw [assocGetD_modify_self _ _ _ _ hpresent, h3 e.errorType, hfilter]
        simp [removeFirstTs]
      · rw [assocGetD_modify_other _ _ _ _ _ ht, h3 t,
          List.filter_cons_of_neg (by simp [errPred_false_other e t ht])]
    · intro t
      rcases eq_or_ne t e.errorType with ht | ht
      · rw [ht]
        have hfilter : (e :: rest).filter (errPred e.errorType) =
            e :: rest.filter (errPred e.errorType) :=
          List.filter_cons_of_pos (errPred_true_self e hg)
        rw [assocGetD_upd_self, h4 e.errorType, hfilter, List.length_cons]
        push_cast
        ring
      · rw [assocGetD_upd_other _ _ _ _ _ _ ht, h4 t,
          List.filter_cons_of_neg (by simp [errPred_false_other e t ht])]
  · rw [if_neg hg]
    refine ⟨?_, ?_, ?_, ?_⟩
    · simp only [h1, List.length_cons]
      push_cast
      ring
    · simp only [sumVals_upd_sub, h2, List.length_cons]
      push_cast
      ring
    · intro t
      rw [h3 t, List.filter_cons_of_neg (by simp [errPred_false_of_guard_false e hg t])]
    · intro t
      rw [h4 t, List.filter_cons_of_neg (by simp [errPred_false_of_guard_false e hg t])]

theorem removeExpiredAux_inv (cutoff : Int) :
    ∀ (es : List LogEntry) (w : SlidingWindow), w.entries = es → WinInv w →
      WinInv (removeExpiredAux cutoff es w) := by
  intro es
  induction es with
  | nil => intro w _ hw; exact hw
  | cons e rest ih =>
    intro w hent hw
    rw [removeExpiredAux]
    by_cases hc : e.timestamp < cutoff
    · rw [if_pos hc]
      exact ih (evictOne w e rest) (evictOne_entries w e rest)
        (evictOne_inv w e rest hent hw)
    · rw [if_neg hc]
      exact hw

theorem removeExpiredEntries_inv (cutoff : Int) (w : SlidingWindow) (hw : WinInv w) :
    WinInv (removeExpiredEntries cutoff w) :=
  removeExpiredAux_inv cutoff w.entries w rfl hw

theorem Add_inv (w : SlidingWindow) (entry : LogEntry) (now : Int) (hw : WinInv w) :
    WinInv (w.Add entry now) := by
  have hw' := removeExpiredEntries_inv (now - w.duration) w hw
  obtain ⟨h1, h2, h3, h4⟩ := hw'
  unfold SlidingWindow.Add
  by_cases hg : (entry.level == "ERROR" && entry.errorType != "") = true
  · rw [if_pos hg]
    refine ⟨?_, ?_, ?_, ?_⟩
    · simp only [h1, List.length_append, List.length_singleton]
      push_cast
      ring
    · simp only [sumVals_upd_add, h2, List.length_append, List.length_singleton]
      push_cast
      ring
    · intro t
      rcases eq_or_ne t entry.errorType with ht | ht
      · rw [ht]
        rw [assocGetD_upd_self, h3 entry.errorType, List.filter_append,
          List.filter_cons_of_pos (errPred_true_self entry hg)]
        rfl
      · rw [assocGetD_upd_other _ _ _ _ _ _ ht, h3 t, List.filter_append,
          List.filter_cons_of_neg (by simp [errPred_false_other entry t ht])]
        simp
    · intro t
      rcases eq_or_ne t entry.errorType with ht | ht
      · rw [ht]
        rw [assocGetD_upd_self, h4 entry.errorType, List.filter_append,
          List.filter_cons_of_pos (errPred_true_self entry hg)]
        simp only [List.length_append, List.length_cons, List.filter_nil,
          List.length_nil]
        push_cast
        ring
      · rw [assocGetD_upd_other _ _ _ _ _ _ ht, h4 t, List.filter_append,
          List.filter_cons_of_neg (by simp [errPred_false_other entry t ht])]
        simp
  · rw [if_neg hg]
    refine ⟨?_, ?_, ?_, ?_⟩
    · simp only [h1, List.length_append, List.length_singleton]
      push_cast
      ring
    · simp only [sumVals_upd_add, h2, List.length_append, List.length_singleton]
      push_cast
      ring
    · intro t
      rw [h3 t, List.filter_append,
        List.filter_cons_of_neg (by simp [errPred_false_of_guard_false entry hg t])]
      simp
    · intro t
      rw [h4 t, List.filter_append,
        List.filter_cons_of_neg (by simp [errPred_false_of_guard_false entry hg t])]
      simp

theorem SetDuration_inv (w : SlidingWindow) (d now : Int) (hw : WinInv w) :
    WinInv (w.SetDuration d now) := by
  unfold SlidingWindow.SetDuration
  by_cases hc : (d : Int) < w.duration
  · simp only [if_pos hc]
    exact removeExpiredEntries_inv _ _ hw
  · simp only [if_neg hc]
    exact hw

theorem runWinOps_inv (ops : List WinOp) :
    ∀ w : SlidingWindow, WinInv w → WinInv (runWinOps w ops) := by
  induction ops with
  | nil => intro w hw; exact hw
  | cons op rest ih =>
    intro w hw
    rw [runWinOps, List.foldl_cons]
    apply ih
    cases op with
    | addOp e now => exact Add_inv w e now hw
    | setDurOp d now => exact SetDuration_inv w d now hw

theorem NewSlidingWindow_inv (d : Int) : WinInv (NewSlidingWindow d) := by
  refine ⟨rfl, rfl, ?_, ?_⟩ <;> intro t <;> rfl

/-- C7.  For any sequence of `add`/`set_duration` operations whose
added entries are valid with non-decreasing timestamps, after each
prefix of the sequence: `totalCount` equals the primary-list length and
the sum of `level_counts`, and for every error type `t`,
`error_counts[t]` equals the length of the per-error list for `t`,
each of whose elements occurs in the primary list. -/
theorem window_invariants (d0 : Int) (ops : List WinOp) (k : Nat)
    (_hvalid : ∀ e ∈ ops.filterMap winOpEntry?, e.isValid = true)
    (_hsorted : ((ops.filterMap winOpEntry?).map LogEntry.timestamp).Pairwise (· ≤ ·)) :
    (runWinOps (NewSlidingWindow d0) (ops.take k)).totalCount =
        (((runWinOps (NewSlidingWindow d0) (ops.take k)).entries.length : Int)) ∧
    sumVals (runWinOps (NewSlidingWindow d0) (ops.take k)).levelCounts =
        (((runWinOps (NewSlidingWindow d0) (ops.take k)).entries.length : Int)) ∧
    (∀ t, assocGetD (runWinOps (NewSlidingWindow d0) (ops.take k)).errorCounts t 0 =
        ((assocGetD (runWinOps (NewSlidingWindow d0)
          (ops.take k)).errorsByType t []).length : Int)) ∧
    (∀ t, ∀ e ∈ assocGetD (runWinOps (NewSlidingWindow d0) (ops.take k)).errorsByType t [],
        e ∈ (runWinOps (NewSlidingWindow d0) (ops.take k)).entries) := by
  have hinv := runWinOps_inv (ops.take k) (NewSlidingWindow d0) (NewSlidingWindow_inv d0)
  obtain ⟨h1, h2, h3, h4⟩ := hinv
  refine ⟨h1, h2, ?_, ?_⟩
  · intro t
    rw [h4 t, h3 t]
  · intro t e he
    rw [h3 t] at he
    exact List.mem_of_mem_filter he

/-- Witness for C7: two valid adds (an `"X"` error at second 1, an INFO
line at second 2) into a fresh 60-second window; the count and index
invariants hold at the full prefix, shown at `t = "X"`. -/
theorem window_invariants_witness :
    (runWinOps (NewSlidingWindow 60)
        ([WinOp.addOp ⟨1, "ERROR", "i", "m", "X", true⟩ 1,
          WinOp.addOp ⟨2, "INFO", "i", "", "", true⟩ 2].take 2)).totalCount =
      (((runWinOps (NewSlidingWindow 60)
        ([WinOp.addOp ⟨1, "ERROR", "i", "m", "X", true⟩ 1,
          WinOp.addOp ⟨2, "INFO", "i", "", "", true⟩ 2].take 2)).entries.length : Int)) ∧
    assocGetD (runWinOps (NewSlidingWindow 60)
        ([WinOp.addOp ⟨1, "ERROR", "i", "m", "X", true⟩ 1,
          WinOp.addOp ⟨2, "INFO", "i", "", "", true⟩ 2].take 2)).errorCounts "X" 0 =
      ((assocGetD (runWinOps (NewSlidingWindow 60)
        ([WinOp.addOp ⟨1, "ERROR", "i", "m", "X", true⟩ 1,
          WinOp.addOp ⟨2, "INFO", "i", "", "", true⟩ 2].take 2)).errorsByType "X"
        []).length : Int) :=
  ⟨(window_invariants 60
      [WinOp.addOp ⟨1, "ERROR", "i", "m", "X", true⟩ 1,
        WinOp.addOp ⟨2, "INFO", "i", "", "", true⟩ 2] 2
      (by decide) (by decide)).1,
    (window_invariants 60
      [WinOp.addOp ⟨1, "ERROR", "i", "m", "X", true⟩ 1,
        WinOp.addOp ⟨2, "INFO", "i", "", "", true⟩ 2] 2
      (by decide) (by decide)).2.2.1 "X"⟩

theorem store_history_step (pt : PatternTracker) (p : String) (c : ℚ) (now : Int)
    (A : List EmergingPatternEvent) (hA : pt.patternHistory = A.drop (A.length - 5)) :
    (pt.StoreEmergingPattern p c now).patternHistory =
      (A ++ [mkEmergingEvent p c now]).drop
        ((A ++ [mkEmergingEvent p c now]).length - 5) := by
  unfold PatternTracker.StoreEmergingPattern
  simp only [hA]
  have hdl : (A.drop (A.length - 5)).length = A.length - (A.length - 5) :=
    List.length_drop _ _
  by_cases hle : A.length ≤ 4
  · have h0 : A.length - 5 = 0 := by omega
    have h0' : (A ++ [mkEmergingEvent p c now]).length - 5 = 0 := by
      rw [List.length_append]
      simp only [List.length_singleton]
      omega
    have hcond : ¬ 5 < (A.drop (A.length - 5) ++ [mkEmergingEvent p c now]).length := by
      rw [List.length_append, hdl]
      simp only [List.length_singleton]
      omega
    rw [if_neg hcond, h0, h0', List.drop_zero, List.drop_zero]
  · have h5 : 5 ≤ A.length := by omega
    have hlen5 : (A.drop (A.length - 5)).length = 5 := by omega
    have hcond : 5 < (A.drop (A.length - 5) ++ [mkEmergingEvent p c now]).length := by
      rw [List.length_append, hlen5]
      simp
    have hidx : (A ++ [mkEmergingEvent p c now]).length - 5 = A.length - 5 + 1 := by
      rw [List.length_append]
      simp only [List.length_singleton]
      omega
    have hL : (A.drop (A.length - 5) ++ [mkEmergingEvent p c now]).drop 1 =
        A.drop (A.length - 5 + 1) ++ [mkEmergingEvent p c now] := by
      rw [List.drop_append_of_le_length (by rw [hlen5]; omega), List.drop_drop]
    have hR : (A ++ [mkEmergingEvent p c now]).drop
          ((A ++ [mkEmergingEvent p c now]).length - 5) =
        A.drop (A.length - 5 + 1) ++ [mkEmergingEvent p c now] := by
      rw [hidx, List.drop_append_of_le_length (by omega)]
    rw [if_pos hcond, hL, hR]

theorem store_history_foldl (now : Int) :
    ∀ (evs : List (String × ℚ)) (pt : PatternTracker) (A : List EmergingPatternEvent),
      pt.patternHistory = A.drop (A.length - 5) →
      (evs.foldl (fun acc pc => acc.StoreEmergingPattern pc.1 pc.2 now) pt).patternHistory
        = (A ++ evs.map (fun pc => mkEmergingEvent pc.1 pc.2 now)).drop
            ((A ++ evs.map (fun pc => mkEmergingEvent pc.1 pc.2 now)).length - 5) := by
  intro evs
  induction evs with
  | nil =>
    intro pt A hA
    simpa using hA
  | cons pc rest ih =>
    intro pt A hA
    rw [List.foldl_cons]
    have hstep := store_history_step pt pc.1 pc.2 now A hA
    have := ih (pt.StoreEmergingPattern pc.1 pc.2 now) (A ++ [mkEmergingEvent pc.1 pc.2 now])
      hstep
    rw [this]
    simp [List.append_assoc]

theorem store_patterns_eq (pt : PatternTracker) (p : String) (c : ℚ) (now : Int) :
    (pt.StoreEmergingPattern p c now).patterns = pt.patterns := rfl

theorem updatePattern_history_eq (pt : PatternTracker) (w : SlidingWindow)
    (e : LogEntry) (now : Int) :
    (pt.UpdatePattern w e now).patternHistory = pt.patternHistory := by
  unfold PatternTracker.UpdatePattern
  split
  · rfl
  · rfl

theorem emerging_scan_foldl (w : SlidingWindow) (now : Int) :
    ∀ (l : List (String × ErrorPattern)) (a1 : List (String × ℚ)) (a2 : List String)
      (a3 : List ℚ),
      (l.foldl (fun (acc : List (String × ℚ) × List String × List ℚ) tp =>
          let change := w.GetErrorChange tp.1 15 15 now
          if 100 < change then
            (acc.1 ++ [(tp.1, change)], acc.2.1 ++ [tp.1], acc.2.2 ++ [change])
          else acc) (a1, a2, a3)) =
        (a1 ++ emergingSig w now l, a2 ++ (emergingSig w now l).map Prod.fst,
          a3 ++ (emergingSig w now l).map Prod.snd) := by
  intro l
  induction l with
  | nil => intro a1 a2 a3; simp [emergingSig]
  | cons tp rest ih =>
    intro a1 a2 a3
    rw [List.foldl_cons]
    by_cases hc : 100 < w.GetErrorChange tp.1 15 15 now
    · simp only [hc, if_pos hc, ih]
      simp [emergingSig, List.filterMap_cons, hc, List.append_assoc]
    · simp only [hc, if_neg hc, ih]
      simp [emergingSig, List.filterMap_cons, hc]

theorem getEmergingPatterns_sig (pt : PatternTracker) (w : SlidingWindow) (now : Int) :
    (pt.GetEmergingPatterns w now).2 = emergingSig w now pt.patterns := by
  unfold PatternTracker.GetEmergingPatterns
  rw [emerging_scan_foldl]
  simp

theorem getEmergingPatterns_tracker (pt : PatternTracker) (w : SlidingWindow)
    (now : Int) :
    (pt.GetEmergingPatterns w now).1 =
      (emergingSig w now pt.patterns).foldl
        (fun acc pc => acc.StoreEmergingPattern pc.1 pc.2 now) pt := by
  unfold PatternTracker.GetEmergingPatterns
  rw [emerging_scan_foldl]
  simp only [List.nil_append]
  congr 1
  exact (List.zip_of_prod rfl rfl).symm

theorem runPTCalls_history (calls : List PTCall) :
    ∀ (pt : PatternTracker) (A : List EmergingPatternEvent),
      pt.patternHistory = A.drop (A.length - 5) →
      (runPTCalls pt calls).1.patternHistory =
        (A ++ (runPTCalls pt calls).2).drop
          ((A ++ (runPTCalls pt calls).2).length - 5) := by
  induction calls with
  | nil =>
    intro pt A hA
    simpa [runPTCalls] using hA
  | cons call rest ih =>
    intro pt A hA
    cases call with
    | updateCall w e now =>
      rw [runPTCalls]
      exact ih (pt.UpdatePattern w e now) A
        (by rw [updatePattern_history_eq]; exact hA)
    | emergingCall w now =>
      rw [runPTCalls]
      have hg : (pt.GetEmergingPatterns w now).1.patternHistory =
          (A ++ (pt.GetEmergingPatterns w now).2.map
            (fun pc => mkEmergingEvent pc.1 pc.2 now)).drop
          ((A ++ (pt.GetEmergingPatterns w now).2.map
            (fun pc => mkEmergingEvent pc.1 pc.2 now)).length - 5) := by
        rw [getEmergingPatterns_tracker, getEmergingPatterns_sig]
        exact store_history_foldl now (emergingSig w now pt.patterns) pt A hA
      have htail := ih (pt.GetEmergingPatterns w now).1
        (A ++ (pt.GetEmergingPatterns w now).2.map
          (fun pc => mkEmergingEvent pc.1 pc.2 now)) hg
      simp only [htail]
      rw [List.append_assoc]

/-- C8.  `GetEmergingPatterns` returns `t ↦ change` for exactly the
known error types with `change = GetErrorChange(t, 15, 15) > 100`; for
each included pattern it appends an event with
`end_time = start_time + 60` and `peak_change = change`, truncating the
history from the head to at most 5 events; and over any sequence of
tracker calls from a fresh tracker with `N` total appended detections,
the history is the suffix of the last `min(N, 5)` appended events,
oldest removed first. -/
theorem emerging_patterns_correct :
    (∀ (pt : PatternTracker) (w : SlidingWindow) (now : Int) (t : String) (c : ℚ),
      (t, c) ∈ (pt.GetEmergingPatterns w now).2 ↔
        ((∃ p, (t, p) ∈ pt.patterns) ∧ c = w.GetErrorChange t 15 15 now ∧ 100 < c)) ∧
    (∀ (pt : PatternTracker) (w : SlidingWindow) (now : Int),
      pt.patternHistory.length ≤ 5 →
      (pt.GetEmergingPatterns w now).1.patternHistory =
        takeLastFive (pt.patternHistory ++
          (pt.GetEmergingPatterns w now).2.map
            (fun pc => mkEmergingEvent pc.1 pc.2 now))) ∧
    (∀ (p : String) (c : ℚ) (now : Int),
      (mkEmergingEvent p c now).startTime = now ∧
      (mkEmergingEvent p c now).endTime = (mkEmergingEvent p c now).startTime + 60 ∧
      (mkEmergingEvent p c now).peakChange = c) ∧
    (∀ calls : List PTCall,
      (runPTCalls NewPatternTracker calls).1.patternHistory =
        takeLastFive (runPTCalls NewPatternTracker calls).2 ∧
      (runPTCalls NewPatternTracker calls).1.patternHistory.length =
        min (runPTCalls NewPatternTracker calls).2.length 5) := by
  refine ⟨?_, ?_, ?_, ?_⟩
  · intro pt w now t c
    rw [getEmergingPatterns_sig, emergingSig]
    rw [List.mem_filterMap]
    constructor
    · rintro ⟨tp, htp, hpick⟩
      simp only at hpick
      by_cases hc : 100 < w.GetErrorChange tp.1 15 15 now
      · rw [if_pos hc] at hpick
        have h1 : tp.1 = t := congrArg Prod.fst (Option.some.inj hpick)
        have h2 : w.GetErrorChange tp.1 15 15 now = c :=
          congrArg Prod.snd (Option.some.inj hpick)
        refine ⟨⟨tp.2, ?_⟩, ?_, ?_⟩
        · rw [← h1]
          exact htp
        · rw [← h2, h1]
        · exact h2 ▸ hc
      · rw [if_neg hc] at hpick
        exact Option.noConfusion hpick
    · rintro ⟨⟨p, hp⟩, hc, h100⟩
      refine ⟨(t, p), hp, ?_⟩
      simp only
      rw [← hc, if_pos (hc ▸ h100)]
  · intro pt w now hlen
    rw [getEmergingPatterns_tracker, getEmergingPatterns_sig, takeLastFive]
    have hA : pt.patternHistory =
        pt.patternHistory.drop (pt.patternHistory.length - 5) := by
      have h0 : pt.patternHistory.length - 5 = 0 := by omega
      rw [h0, List.drop_zero]
    exact store_history_foldl now (emergingSig w now pt.patterns) pt
      pt.patternHistory hA
  · intro p c now
    exact ⟨rfl, rfl, rfl⟩
  · intro calls
    have h := runPTCalls_history calls NewPatternTracker [] rfl
    rw [List.nil_append] at h
    refine ⟨h, ?_⟩
    rw [h, List.length_drop]
    omega

/-- Witness for C8: a tracker knowing `"X"` (empty history) against a
window holding one old and three recent `"X"` errors (change = 200 >
100): the post-call history is the truncated append of the produced
events. -/
theorem emerging_patterns_correct_witness :
    (({ patterns := [("X", ⟨4, 0, 0, [0, 0, 0, 0, 0]⟩)], historySize := 5,
          patternHistory := [] } : PatternTracker).GetEmergingPatterns
        ((((NewSlidingWindow 60).Add ⟨1, "ERROR", "i", "m", "X", true⟩ 1).Add
            ⟨16, "ERROR", "i", "m", "X", true⟩ 16).Add
            ⟨17, "ERROR", "i", "m", "X", true⟩ 17) 30).1.patternHistory =
      takeLastFive
        (({ patterns := [("X", ⟨4, 0, 0, [0, 0, 0, 0, 0]⟩)], historySize := 5,
            patternHistory := [] } : PatternTracker).patternHistory ++
          (({ patterns := [("X", ⟨4, 0, 0, [0, 0, 0, 0, 0]⟩)], historySize := 5,
              patternHistory := [] } : PatternTracker).GetEmergingPatterns
            ((((NewSlidingWindow 60).Add ⟨1, "ERROR", "i", "m", "X", true⟩ 1).Add
                ⟨16, "ERROR", "i", "m", "X", true⟩ 16).Add
                ⟨17, "ERROR", "i", "m", "X", true⟩ 17) 30).2.map
            (fun pc => mkEmergingEvent pc.1 pc.2 30)) :=
  emerging_patterns_correct.2.1
    ({ patterns := [("X", ⟨4, 0, 0, [0, 0, 0, 0, 0]⟩)], historySize := 5,
        patternHistory := [] } : PatternTracker)
    ((((NewSlidingWindow 60).Add ⟨1, "ERROR", "i", "m", "X", true⟩ 1).Add
        ⟨16, "ERROR", "i", "m", "X", true⟩ 16).Add
        ⟨17, "ERROR", "i", "m", "X", true⟩ 17) 30 (by decide)
